import Mathlib

/-!
Verification of the swarm-app review/merge pipeline and surgical patch engine.

The definitions below are a shallow embedding of the JavaScript code installed
by `apply-sentinel-polling.py` and `apply-surgical-edits.py`:
pure functions model the file-level patch engine and the prompt-context
truncation, and the stateful store operations are modelled by explicit state
passing over a `Ticket` row (the relational store row) together with the
emitted audit `Event`s. External calls (the verifier, the `gh pr merge`
command, the repo-URL lookup queries) are modelled as oracle arguments whose
values range over every outcome the external system can produce.
-/

namespace Swarm

/-! ### List/string primitives mirroring the JavaScript string operations -/

/-- First list is a prefix of the second (used to locate substring matches). -/
def listStartsWith : List Char → List Char → Bool
  | [], _ => true
  | _ :: _, [] => false
  | a :: as, b :: bs => (a == b) && listStartsWith as bs

/-- `needle` occurs somewhere inside `hay` (JavaScript `String.prototype.includes`). -/
def listContains (needle : List Char) : List Char → Bool
  | [] => listStartsWith needle []
  | c :: cs => listStartsWith needle (c :: cs) || listContains needle cs

/-- Replace the first occurrence of `s` by `r` (JavaScript `String.prototype.replace`
with a plain-string pattern replaces only the first occurrence). -/
def replaceFirstList (s r : List Char) : List Char → List Char
  | [] => if listStartsWith s [] then r else []
  | c :: cs =>
    if listStartsWith s (c :: cs) then r ++ (c :: cs).drop s.length
    else c :: replaceFirstList s r cs

/-- Scanner for `countOcc`: while `skip > 0` the scanner is still inside a
previously matched occurrence and moves on without testing; at `skip = 0` a
match at the current position counts once and restarts the scanner after
the matched text (non-overlapping, left-to-right, as `split` cuts). -/
def countOccAux (s : List Char) : List Char → Nat → Nat
  | [], _ => 0
  | _ :: cs, skip + 1 => countOccAux s cs skip
  | c :: cs, 0 =>
    if listStartsWith s (c :: cs) && !s.isEmpty then
      1 + countOccAux s cs (s.length - 1)
    else
      countOccAux s cs 0

/-- Number of non-overlapping left-to-right occurrences of `s`
(JavaScript `content.split(s).length - 1`; the source only evaluates this
with a non-empty `s`, guarded by the falsy-search check). -/
def countOcc (s l : List Char) : Nat :=
  countOccAux s l 0

/-- String wrapper: `hay.includes(sub)`. -/
def strIncludes (hay sub : String) : Bool :=
  listContains sub.data hay.data

/-- String wrapper: `hay.replace(sub, rep)` (first occurrence only). -/
def strReplaceFirst (hay sub rep : String) : String :=
  ⟨replaceFirstList sub.data rep.data hay.data⟩

/-- String wrapper: `hay.split(sub).length - 1`. -/
def countOccS (hay sub : String) : Nat :=
  countOcc sub.data hay.data

/-- `s.substring(0, n)`. -/
def strTake (s : String) (n : Nat) : String :=
  ⟨s.data.take n⟩

/-- A JavaScript string-valued field is falsy when it is absent (`undefined` /
`null`) or the empty string. -/
def jsFalsyStr : Option String → Bool
  | none => true
  | some s => s == ""

/-! ### Splitting into lines and joining, mirroring `content.split('\n')`
and `lines.join('\n')` -/

/-- `split('\n')` on character lists. Always returns at least one piece. -/
def splitNl : List Char → List (List Char)
  | [] => [[]]
  | c :: cs =>
    if c = '\n' then [] :: splitNl cs
    else
      match splitNl cs with
      | [] => [[c]]
      | l :: ls => (c :: l) :: ls

/-- `join('\n')` on character lists. -/
def joinNl : List (List Char) → List Char
  | [] => []
  | [l] => l
  | l :: l' :: ls => l ++ '\n' :: joinNl (l' :: ls)

/-- `content.split('\n')` as a list of line strings. -/
def splitLines (s : String) : List String :=
  (splitNl s.data).map (fun cs => ⟨cs⟩)

/-- `lines.join('\n')`. -/
def joinLines (ls : List String) : String :=
  ⟨joinNl (ls.map String.data)⟩

/-- JavaScript `array.slice(-k)`: the last `k` elements, except that
`slice(-0)` is `slice(0)`, the whole array. -/
def jsSliceLast (l : List α) (k : Nat) : List α :=
  if k = 0 then l else l.drop (l.length - k)

/-! ### Context Assembler: `fetchExistingFileContent` (apply-surgical-edits.py)

```js
function fetchExistingFileContent(repoDir, filePath, maxLines = 300) {
  ...existence check, returning null for a missing file...
  const content = fs.readFileSync(fullPath, 'utf8');
  const lines = content.split('\n');
  if (lines.length > maxLines) {
    const headLines = lines.slice(0, Math.floor(maxLines / 2));
    const tailLines = lines.slice(-Math.floor(maxLines / 2));
    return headLines.join('\n') +
      '\n\n... [' + (lines.length - maxLines) + ' lines truncated] ...\n\n' +
      tailLines.join('\n');
  }
  return content;
}
```
The file system access is modelled by passing the file's on-disk content as
an `Option String` (`none` = the file does not exist). -/
def fetchExistingFileContent (fileOnDisk : Option String) (maxLines : Nat := 300) :
    Option String :=
  match fileOnDisk with
  | none => none
  | some content =>
    let lines := splitLines content
    if lines.length > maxLines then
      let headLines := lines.take (maxLines / 2)
      let tailLines := jsSliceLast lines (maxLines / 2)
      some (joinLines headLines ++
        "\n\n... [" ++ toString (lines.length - maxLines) ++ " lines truncated] ...\n\n" ++
        joinLines tailLines)
    else
      some content

/-- The elision marker line the truncation inserts, as a single line of the
returned text: `... [<n> lines truncated] ...`. -/
def markerLine (n : Nat) : String :=
  "... [" ++ toString n ++ " lines truncated] ..."

/-! ### Patch Engine: `writeFiles` (apply-surgical-edits.py)

```js
function writeFiles(repoDir, files) {
  const written = [];
  for (const file of files) {
    ...mkdir of the parent directory...
    if (file.action === 'modify' && file.patches && Array.isArray(file.patches)) {
      if (!fs.existsSync(filePath)) { log.error('Cannot modify non-existent file', ...); continue; }
      let fileContent = fs.readFileSync(filePath, 'utf8');
      let patchesApplied = 0;
      for (const patch of file.patches) {
        if (!patch.search || patch.replace === undefined) { log.warn('Invalid patch format', ...); continue; }
        if (!fileContent.includes(patch.search)) { log.warn('Patch search text not found', ...); continue; }
        const occurrences = fileContent.split(patch.search).length - 1;
        if (occurrences > 1) { log.warn('Patch search text not unique', ...); }
        fileContent = fileContent.replace(patch.search, patch.replace);
        patchesApplied++;
      }
      if (patchesApplied > 0) { fs.writeFileSync(filePath, fileContent); written.push(file.path); log.info('Applied patches to file', ...); }
      else { log.error('No patches applied to file', ...); }
    } else {
      fs.writeFileSync(filePath, file.content);
      written.push(file.path);
      log.info('Wrote file', ...);
    }
  }
  return written;
}
```
The working checkout is modelled as an association list from path to file
content; `file.search` / `file.replace` are `Option String` because a JSON
field may be absent (`undefined`), and the falsy check `!patch.search` also
fires on the empty string. -/

/-- A surgical search/replace instruction. -/
structure Patch where
  search : Option String
  replace : Option String
deriving DecidableEq, Repr

/-- A file-level instruction produced by the generation call. `patches = none`
models a `patches` field that is absent or not an array. -/
structure FileEdit where
  path : String
  action : String
  content : String
  patches : Option (List Patch)
deriving DecidableEq, Repr

/-- Operator-facing log lines emitted by `writeFiles`, one constructor per
`log.*` call site in the source. -/
inductive LogEntry where
  | errCannotModify (path : String)
  | warnInvalidPatch (path : String)
  | warnNotFound (path preview : String)
  | warnNotUnique (path : String) (occurrences : Nat)
  | infoApplied (path : String) (applied total : Nat)
  | errNoPatches (path : String)
  | infoWrote (path : String) (bytes : Nat)
deriving DecidableEq, Repr

/-- The working checkout: a flat map from relative path to file content. -/
def Fs := List (String × String)

instance : DecidableEq Fs := inferInstanceAs (DecidableEq (List (String × String)))

/-- `fs.existsSync` / `fs.readFileSync`. -/
def fsLookup : Fs → String → Option String
  | [], _ => none
  | (p, c) :: rest, q => if p = q then some c else fsLookup rest q

/-- `fs.writeFileSync`: overwrite the file, creating it if absent. -/
def fsWrite : Fs → String → String → Fs
  | [], p, c => [(p, c)]
  | (q, d) :: rest, p, c => if q = p then (p, c) :: rest else (q, d) :: fsWrite rest p c

/-- One iteration of the patch loop: thread the current in-memory content,
the count of applied patches, and the log. -/
def applyPatch (path : String) (st : String × Nat × List LogEntry) (p : Patch) :
    String × Nat × List LogEntry :=
  let content := st.1
  let applied := st.2.1
  let logs := st.2.2
  if jsFalsyStr p.search || p.replace.isNone then
    (content, applied, logs ++ [.warnInvalidPatch path])
  else
    let s := p.search.getD ""
    let r := p.replace.getD ""
    if !strIncludes content s then
      (content, applied, logs ++ [.warnNotFound path (strTake s 50 ++ "...")])
    else
      let occurrences := countOccS content s
      let logs2 := if occurrences > 1 then logs ++ [.warnNotUnique path occurrences] else logs
      (strReplaceFirst content s r, applied + 1, logs2)

/-- Accumulated result of `writeFiles`: final checkout, returned `written`
paths, and the log. -/
structure WriteState where
  fs : Fs
  written : List String
  logs : List LogEntry
deriving DecidableEq

/-- The `else` (create) branch: write `file.content` verbatim. -/
def createFile (st : WriteState) (file : FileEdit) : WriteState :=
  ⟨fsWrite st.fs file.path file.content,
   st.written ++ [file.path],
   st.logs ++ [.infoWrote file.path file.content.length]⟩

/-- The surgical-modification branch. -/
def modifyFile (st : WriteState) (path : String) (ps : List Patch) : WriteState :=
  match fsLookup st.fs path with
  | none => ⟨st.fs, st.written, st.logs ++ [.errCannotModify path]⟩
  | some content =>
    let res := ps.foldl (applyPatch path) (content, 0, st.logs)
    if res.2.1 > 0 then
      ⟨fsWrite st.fs path res.1, st.written ++ [path],
       res.2.2 ++ [.infoApplied path res.2.1 ps.length]⟩
    else
      ⟨st.fs, st.written, res.2.2 ++ [.errNoPatches path]⟩

/-- One iteration of the file loop. -/
def processFile (st : WriteState) (file : FileEdit) : WriteState :=
  match file.patches, file.action == "modify" with
  | some ps, true => modifyFile st file.path ps
  | some _, false => createFile st file
  | none, _ => createFile st file

/-- `writeFiles(repoDir, files)`. -/
def writeFiles (fs : Fs) (files : List FileEdit) : WriteState :=
  files.foldl processFile ⟨fs, [], []⟩

/-! ### Ticket store rows and audit events (apply-sentinel-polling.py)

Timestamps are `Nat` (`NOW()` is passed in as the `now` argument); nullable
columns are `Option`s. -/

/-- A row of the `tickets` table (the columns this core touches). -/
structure Ticket where
  id : String
  state : String
  assignee_id : String
  assignee_type : String
  vm_id : Option Int
  pr_url : Option String
  branch_name : Option String
  repo_url : Option String
  acceptance_criteria : String
  verification_status : Option String
  updated_at : Nat
  last_heartbeat : Option Nat
  merged_at : Option Nat
deriving DecidableEq, Repr

/-- An immutable audit record appended by `emitEvent`. -/
structure Event where
  ticketId : String
  eventType : String
  fromState : String
  toState : String
  payload : String
deriving DecidableEq, Repr

/-- The `sentinel_started` audit event emitted by a successful claim. -/
def sentinelStartedEvent (ticketId : String) : Event :=
  ⟨ticketId, "sentinel_started", "in_review", "reviewing", "\x7b\x7d"⟩

/-- The guard of the conditional claim `UPDATE`:
`state = 'in_review' AND assignee_id = 'sentinel-agent'`. -/
def claimEligible (t : Ticket) : Bool :=
  t.state == "in_review" && t.assignee_id == "sentinel-agent"

/-- The `SET` clause of the claim `UPDATE`. -/
def claimUpdate (now : Nat) (t : Ticket) : Ticket :=
  { t with state := "reviewing", vm_id := some (-1),
           last_heartbeat := some now, updated_at := now }

/-- `atomicClaimReviewTicket` acting on the single row it addresses: the
conditional update either matches the row (guard true) and returns the
updated record, emitting the `sentinel_started` event, or matches nothing
and returns `null`, leaving the row untouched.

```js
async atomicClaimReviewTicket(ticketId) {
  const result = await this.pgPool.query(
    UPDATE tickets SET state = 'reviewing', vm_id = -1,
      last_heartbeat = NOW(), updated_at = NOW()
    WHERE id = $1 AND state = 'in_review' AND assignee_id = 'sentinel-agent'
    RETURNING *, [ticketId]);
  if (result.rows[0]) {
    notifyTicketStateChange(ticketId, 'reviewing', ...);
    await this.emitEvent(ticketId, 'sentinel_started', 'in_review', 'reviewing', {});
  }
  return result.rows[0] || null;
}
``` -/
def atomicClaimRow (now : Nat) (t : Ticket) : Option Ticket × Ticket × List Event :=
  if claimEligible t then
    let t' := claimUpdate now t
    (some t', t', [sentinelStartedEvent t.id])
  else
    (none, t, [])

/-- `atomicClaimReviewTicket` at the store level: the `WHERE` clause also
selects the row by `id = $1`. -/
def atomicClaimReviewTicket (now : Nat) (store : List Ticket) (ticketId : String) :
    List Ticket × Option Ticket × List Event :=
  let store' := store.map fun t =>
    if t.id == ticketId && claimEligible t then claimUpdate now t else t
  match (store.filter fun t => t.id == ticketId && claimEligible t).head? with
  | some t =>
    (store', some (claimUpdate now t), [sentinelStartedEvent ticketId])
  | none => (store', none, [])

/-- Successes among a sequence of claim attempts on one row, each attempt
seeing the row as the previous attempt left it (`times` are the `NOW()`
values of the attempts). -/
def countSuccessfulClaims (t : Ticket) : List Nat → Nat
  | [] => 0
  | now :: rest =>
    match atomicClaimRow now t with
    | (some _, t', _) => 1 + countSuccessfulClaims t' rest
    | (none, t', _) => countSuccessfulClaims t' rest

/-- Row update of `setMerged`: unconditional (`WHERE id = $1` only). -/
def setMergedRow (now : Nat) (t : Ticket) : Ticket :=
  { t with state := "merged", vm_id := none, merged_at := some now, updated_at := now }

/-- The audit event appended by `setMerged`; `from_state` is the literal
string `'reviewing'` in the source. -/
def mergedEvent (ticketId prUrl : String) : Event :=
  ⟨ticketId, "merged", "reviewing", "merged", prUrl⟩

/-- `setMerged(ticketId, prUrl)` on the store, returning the updated store
and the emitted audit event. -/
def setMerged (now : Nat) (store : List Ticket) (ticketId prUrl : String) :
    List Ticket × Event :=
  (store.map fun t => if t.id == ticketId then setMergedRow now t else t,
   mergedEvent ticketId prUrl)

/-- Row update of `setSentinelFailed`: unconditional (`WHERE id = $1` only). -/
def setSentinelFailedRow (now : Nat) (t : Ticket) : Ticket :=
  { t with state := "sentinel_failed", vm_id := none,
           verification_status := some "sentinel_rejected", updated_at := now }

/-- The audit event appended by `setSentinelFailed`; `from_state` is the
literal string `'reviewing'` in the source. -/
def sentinelFailedEvent (ticketId reason : String) : Event :=
  ⟨ticketId, "sentinel_failed", "reviewing", "sentinel_failed", reason⟩

/-- `setSentinelFailed(ticketId, reason)` on the store. -/
def setSentinelFailed (now : Nat) (store : List Ticket) (ticketId reason : String) :
    List Ticket × Event :=
  (store.map fun t => if t.id == ticketId then setSentinelFailedRow now t else t,
   sentinelFailedEvent ticketId reason)

/-! ### Merge Coordinator: `mergePR` -/

/-- Outcome of the external `gh pr merge` invocation (`execSync`): either it
returns normally, or it throws an error carrying a message and a captured
error stream (an absent stream is modelled by the empty string, on which the
`includes` test is false, as on `undefined` in the source). -/
inductive MergeCmdResult where
  | success
  | failure (message : String) (stderr : String)
deriving DecidableEq, Repr

/-- The regex `/github\.com\/([^\/]+)\/([^\/]+)\/pull\/(\d+)/` applied at one
candidate position (the characters following a `"github.com/"` occurrence):
a non-empty owner segment, `/`, a non-empty repo segment, `/pull/`, then at
least one digit. -/
def pullUrlMatchAt (cs : List Char) : Option (String × String × String) :=
  let owner := cs.takeWhile (· ≠ '/')
  let r1 := cs.dropWhile (· ≠ '/')
  if owner.isEmpty then none
  else
    match r1 with
    | '/' :: r2 =>
      let repo := r2.takeWhile (· ≠ '/')
      let r3 := r2.dropWhile (· ≠ '/')
      if repo.isEmpty then none
      else
        match r3 with
        | '/' :: r4 =>
          if listStartsWith "pull/".data r4 then
            let digits := (r4.drop 5).takeWhile Char.isDigit
            if digits.isEmpty then none else some (⟨owner⟩, ⟨repo⟩, ⟨digits⟩)
          else none
        | _ => none
    | _ => none

/-- Unanchored regex search: try every position left to right, as a regex
engine does, and keep the first successful match. -/
def findPrMatch : List Char → Option (String × String × String)
  | [] => none
  | c :: cs =>
    if listStartsWith "github.com/".data (c :: cs) then
      match pullUrlMatchAt ((c :: cs).drop 11) with
      | some r => some r
      | none => findPrMatch cs
    else findPrMatch cs

/-- `prUrl.match(/github\.com\/([^\/]+)\/([^\/]+)\/pull\/(\d+)/)`, returning
the captured `(owner, repo, prNumber)`. -/
def parsePrUrl (prUrl : String) : Option (String × String × String) :=
  findPrMatch prUrl.data

/-- `mergePR(ticketId, prUrl, branchName)` acting on the ticket's row, with
the external command's outcome supplied as an oracle.

```js
async mergePR(ticketId, prUrl, branchName) {
  const match = prUrl.match(/github\.com\/([^\/]+)\/([^\/]+)\/pull\/(\d+)/);
  if (!match) throw new Error(`Invalid PR URL: ` + prUrl);
  ...
  try {
    execSync(mergeCmd, { ... timeout: 60000 });
    await this.setMerged(ticketId, prUrl);
  } catch (err) {
    if (err.message?.includes('already been merged') ||
        err.stderr?.toString().includes('already been merged')) {
      await this.setMerged(ticketId, prUrl);
      return;
    }
    throw err;
  }
}
```
A thrown error is the `Except.error` case carrying the error's message. -/
def mergePR (now : Nat) (cmd : MergeCmdResult) (t : Ticket) (prUrl : String) :
    Except String (Ticket × List Event) :=
  match parsePrUrl prUrl with
  | none => .error ("Invalid PR URL: " ++ prUrl)
  | some _ =>
    match cmd with
    | .success => .ok (setMergedRow now t, [mergedEvent t.id prUrl])
    | .failure msg stderr =>
      if strIncludes msg "already been merged" || strIncludes stderr "already been merged" then
        .ok (setMergedRow now t, [mergedEvent t.id prUrl])
      else
        .error msg

/-! ### Sentinel Reviewer: `executeSentinelReview` -/

/-- Result object of the external verifier call. -/
structure VerifyResult where
  status : String
  feedback_for_agent : Option (List String)
deriving DecidableEq, Repr

/-- `JSON.stringify(verifyResult)` (escaping of exotic characters inside the
strings is not modelled; the claims do not depend on it). -/
def serializeVerifyResult (v : VerifyResult) : String :=
  "\x7b\"status\":\"" ++ v.status ++ "\",\"feedback_for_agent\":" ++
    (match v.feedback_for_agent with
     | none => "null"
     | some fs => "[" ++ String.intercalate "," (fs.map fun f => "\"" ++ f ++ "\"") ++ "]") ++
  "\x7d"

/-- The body of `executeSentinelReview(ticket)`'s `try` block after a
successful claim, acting on the ticket's row. The fallible
external steps are oracles: `repoLookup` is the outcome of
`_getRepoUrlForTicket` (database queries against projects / design
sessions), `verifyRes` the outcome of the `verify` call, and `cmd` the
outcome of the merge command. A result of `.error` would mean an unhandled
fault propagating to the dispatch loop.

```js
async executeSentinelReview(ticket) {
  const ticketId = ticket.id.toString();
  try {
    const claimed = await this.atomicClaimReviewTicket(ticketId);
    if (!claimed) { return; }
    const prUrl = ticket.pr_url;
    const branchName = ticket.branch_name;
    const repoUrl = ticket.repo_url || await this._getRepoUrlForTicket(ticket);
    if (!prUrl) { await this.setSentinelFailed(ticketId, 'No PR URL found'); return; }
    const verifyResult = await verify({ ... });
    if (verifyResult.status === 'passed') {
      try { await this.mergePR(ticketId, prUrl, branchName); }
      catch (mergeErr) {
        await this.setSentinelFailed(ticketId, `Merge failed: ` + mergeErr.message);
      }
    } else {
      await this.setSentinelFailed(ticketId, JSON.stringify(verifyResult));
    }
  } catch (err) {
    await this.setSentinelFailed(ticketId, err.message);
  }
}
``` -/
def sentinelBody (now : Nat) (t claimed : Ticket)
    (repoLookup : Except String (Option String))
    (verifyRes : Except String VerifyResult)
    (cmd : MergeCmdResult) : Except String (Ticket × List Event) :=
  match (if jsFalsyStr t.repo_url then repoLookup else .ok t.repo_url) with
  | .error e => .error e
  | .ok _repoUrl =>
    if jsFalsyStr t.pr_url then
      .ok (setSentinelFailedRow now claimed, [sentinelFailedEvent t.id "No PR URL found"])
    else
      match verifyRes with
      | .error e => .error e
      | .ok vr =>
        if vr.status == "passed" then
          match mergePR now cmd claimed (t.pr_url.getD "") with
          | .ok (t2, evs) => .ok (t2, evs)
          | .error m =>
            .ok (setSentinelFailedRow now claimed,
                 [sentinelFailedEvent t.id ("Merge failed: " ++ m)])
        else
          .ok (setSentinelFailedRow now claimed,
               [sentinelFailedEvent t.id (serializeVerifyResult vr)])

/-- The whole operation: attempt the claim (a failed claim returns silently),
run the body, and convert any error the body raises into a
`setSentinelFailed` transition — the outer `catch`. -/
def executeSentinelReview (now : Nat) (t : Ticket)
    (repoLookup : Except String (Option String))
    (verifyRes : Except String VerifyResult)
    (cmd : MergeCmdResult) : Except String (Ticket × List Event) :=
  match atomicClaimRow now t with
  | (none, _, _) => .ok (t, [])
  | (some claimed, _, evs0) =>
    match sentinelBody now t claimed repoLookup verifyRes cmd with
    | .ok (t2, evs) => .ok (t2, evs0 ++ evs)
    | .error e =>
      .ok (setSentinelFailedRow now claimed, evs0 ++ [sentinelFailedEvent t.id e])

/-! ### Sample data used by the witnesses -/

/-- A review-ready ticket as produced by the verification gate. -/
def sampleTicket : Ticket :=
  ⟨"T1", "in_review", "sentinel-agent", "agent", none,
   some "https://github.com/acme/widgets/pull/42", some "feature-t1",
   some "https://github.com/acme/widgets", "criteria", none, 0, none, none⟩

/-- A ticket already in the terminal `merged` state. -/
def mergedTicket : Ticket :=
  { sampleTicket with state := "merged", merged_at := some 1 }

/-- A one-file checkout. -/
def fs0 : Fs := [("a.txt", "old")]

/-- A 1000-line file (every line is `x`). -/
def content1000 : String := joinLines (List.replicate 1000 "x")

/-! ### Helper lemmas -/

/-- A freshly claimed row no longer satisfies the claim guard. -/
theorem claimEligible_claimUpdate (now : Nat) (t : Ticket) :
    claimEligible (claimUpdate now t) = false := by
  have h : (("reviewing" : String) == "in_review") = false := by decide
  simp [claimEligible, claimUpdate, h]

/-- No attempt on an ineligible row ever succeeds (the row is left unchanged
by each failing attempt). -/
theorem countSuccessfulClaims_ineligible (t : Ticket) (h : claimEligible t = false) :
    ∀ times : List Nat, countSuccessfulClaims t times = 0 := by
  intro times
  induction times with
  | nil => rfl
  | cons now rest ih =>
    simp [countSuccessfulClaims, atomicClaimRow, h, ih]

/-! ### Claims -/

/-- C1: `atomicClaimReviewTicket` is a single conditional update guarded by
the pre-claim state: if the row is `in_review` and assigned to
`sentinel-agent` it becomes `reviewing` with `vm_id = -1`, refreshed
heartbeat and `updated_at`, and is returned; otherwise (in particular for an
already-claimed row) the call returns null and leaves the row unchanged, so
among any non-empty sequence of claim attempts on one `in_review` ticket
exactly one succeeds. -/
theorem claim_is_guarded_conditional_update (now : Nat) (t : Ticket) :
    (claimEligible t = true →
      atomicClaimRow now t =
        (some (claimUpdate now t), claimUpdate now t, [sentinelStartedEvent t.id])
      ∧ (claimUpdate now t).state = "reviewing"
      ∧ (claimUpdate now t).vm_id = some (-1)
      ∧ (claimUpdate now t).last_heartbeat = some now
      ∧ (claimUpdate now t).updated_at = now)
    ∧ (claimEligible t = false → atomicClaimRow now t = (none, t, []))
    ∧ (claimEligible t = true →
        ∀ times : List Nat, times ≠ [] → countSuccessfulClaims t times = 1) := by
  refine ⟨fun h => ⟨by simp [atomicClaimRow, h], rfl, rfl, rfl, rfl⟩,
          fun h => by simp [atomicClaimRow, h],
          fun h times hne => ?_⟩
  cases times with
  | nil => exact absurd rfl hne
  | cons now0 rest =>
    simp [countSuccessfulClaims, atomicClaimRow, h,
          countSuccessfulClaims_ineligible _ (claimEligible_claimUpdate now0 t) rest]

/-- Witness for C1: a concrete `in_review` ticket is claimed on the first of
three attempts and on no other; re-claiming the claimed row
(`state = reviewing`, `vm_id = -1`) is a no-op. -/
theorem claim_is_guarded_conditional_update_witness :
    atomicClaimRow 5 sampleTicket =
      (some (claimUpdate 5 sampleTicket), claimUpdate 5 sampleTicket,
       [sentinelStartedEvent "T1"])
    ∧ atomicClaimRow 6 (claimUpdate 5 sampleTicket) = (none, claimUpdate 5 sampleTicket, [])
    ∧ countSuccessfulClaims sampleTicket [1, 2, 3] = 1 :=
  ⟨((claim_is_guarded_conditional_update 5 sampleTicket).1 (by decide)).1,
   (claim_is_guarded_conditional_update 6 (claimUpdate 5 sampleTicket)).2.1
     (claimEligible_claimUpdate 5 sampleTicket),
   (claim_is_guarded_conditional_update 0 sampleTicket).2.2 (by decide) [1, 2, 3]
     (by decide)⟩

/-- C2: if the merge command fails but the failure text — in the primary
message or the captured error stream — says the PR was already merged,
`mergePR` treats the call as success: the ticket is transitioned to
`merged` and no error is raised. -/
theorem mergePR_idempotent_already_merged (now : Nat) (t : Ticket)
    (prUrl msg stderr o r n : String)
    (hparse : parsePrUrl prUrl = some (o, r, n))
    (halready : strIncludes msg "already been merged" = true ∨
                strIncludes stderr "already been merged" = true) :
    mergePR now (.failure msg stderr) t prUrl =
      .ok (setMergedRow now t, [mergedEvent t.id prUrl])
    ∧ (setMergedRow now t).state = "merged"
    ∧ (∀ res, mergePR now (.failure msg stderr) t prUrl ≠ .error res)
    ∧ mergePR now .success t prUrl = .ok (setMergedRow now t, [mergedEvent t.id prUrl]) := by
  have h1 : mergePR now (.failure msg stderr) t prUrl =
      .ok (setMergedRow now t, [mergedEvent t.id prUrl]) := by
    unfold mergePR
    rw [hparse]
    rcases halready with h | h <;> simp [h]
  refine ⟨h1, rfl, fun res hx => ?_, ?_⟩
  · rw [h1] at hx
    exact Except.noConfusion hx
  · unfold mergePR
    rw [hparse]

/-- Witness for C2: a concrete already-merged failure is converted into the
`merged` transition. -/
theorem mergePR_idempotent_already_merged_witness :
    mergePR 7 (.failure "GraphQL: pull request has already been merged" "") sampleTicket
      "https://github.com/acme/widgets/pull/42" =
      .ok (setMergedRow 7 sampleTicket,
           [mergedEvent "T1" "https://github.com/acme/widgets/pull/42"])
    ∧ (setMergedRow 7 sampleTicket).state = "merged" :=
  ⟨(mergePR_idempotent_already_merged 7 sampleTicket
      "https://github.com/acme/widgets/pull/42"
      "GraphQL: pull request has already been merged" "" "acme" "widgets" "42"
      (by decide) (Or.inl (by decide))).1,
   (mergePR_idempotent_already_merged 7 sampleTicket
      "https://github.com/acme/widgets/pull/42"
      "GraphQL: pull request has already been merged" "" "acme" "widgets" "42"
      (by decide) (Or.inl (by decide))).2.1⟩

/-- C7: a PR URL the pattern does not match makes `mergePR` fail immediately
with the fatal input error; the result does not depend on the external merge
command (it is never invoked) and no `merged` transition can be produced. -/
theorem mergePR_rejects_invalid_url (now : Nat) (cmd : MergeCmdResult) (t : Ticket)
    (prUrl : String) (h : parsePrUrl prUrl = none) :
    mergePR now cmd t prUrl = .error ("Invalid PR URL: " ++ prUrl)
    ∧ (∀ cmd', mergePR now cmd t prUrl = mergePR now cmd' t prUrl)
    ∧ (∀ t2 evs, mergePR now cmd t prUrl ≠ .ok (t2, evs)) := by
  have hm : ∀ c : MergeCmdResult,
      mergePR now c t prUrl = .error ("Invalid PR URL: " ++ prUrl) := by
    intro c
    unfold mergePR
    rw [h]
  refine ⟨hm cmd, fun cmd' => (hm cmd).trans (hm cmd').symm, fun t2 evs hx => ?_⟩
  rw [hm cmd] at hx
  exact Except.noConfusion hx

/-- Witness for C7: a concrete malformed URL is rejected. -/
theorem mergePR_rejects_invalid_url_witness :
    mergePR 3 .success sampleTicket "not-a-pr-url" =
      .error ("Invalid PR URL: " ++ "not-a-pr-url") :=
  (mergePR_rejects_invalid_url 3 .success sampleTicket "not-a-pr-url" (by decide)).1

/-- C9: a `modify` edit whose `patches` field is absent (or not an array)
falls through to the create branch: `edit.content` is written verbatim,
overwriting any existing file, and the path is reported as written; the
file-must-exist guard applies only when `patches` is an array. -/
theorem writeFiles_modify_without_patches_array (fs : Fs) (e : FileEdit)
    (hact : e.action = "modify") :
    (e.patches = none →
      writeFiles fs [e] =
        ⟨fsWrite fs e.path e.content, [e.path], [.infoWrote e.path e.content.length]⟩)
    ∧ (∀ ps, e.patches = some ps → fsLookup fs e.path = none →
        writeFiles fs [e] = ⟨fs, [], [.errCannotModify e.path]⟩) := by
  constructor
  · intro hp
    simp [writeFiles, processFile, hp, createFile]
  · intro ps hp hfile
    have hb : (e.action == "modify") = true := by simp [hact]
    simp [writeFiles, processFile, hp, hb, modifyFile, hfile]

/-- Witness for C9: a concrete `modify` edit with no `patches` array
overwrites the existing file and reports the path as written. -/
theorem writeFiles_modify_without_patches_array_witness :
    writeFiles fs0 [⟨"a.txt", "modify", "new content", none⟩] =
      ⟨[("a.txt", "new content")], ["a.txt"], [.infoWrote "a.txt" 11]⟩ := by
  have h := (writeFiles_modify_without_patches_array fs0
    ⟨"a.txt", "modify", "new content", none⟩ rfl).1 rfl
  rw [h]
  decide

/-- C10: `setMerged` and `setSentinelFailed` update the row unconditionally —
the update is selected by ticket id only, with no guard on the current
state — and the audit event each emits always records
`from_state = 'reviewing'`, whatever the row's actual prior state. -/
theorem setMerged_setSentinelFailed_unconditional
    (now : Nat) (store : List Ticket) (tid prUrl reason : String) (t : Ticket)
    (hmem : t ∈ store) (hid : t.id = tid) :
    setMergedRow now t ∈ (setMerged now store tid prUrl).1
    ∧ (setMergedRow now t).state = "merged"
    ∧ (setMergedRow now t).vm_id = none
    ∧ (setMergedRow now t).merged_at = some now
    ∧ setSentinelFailedRow now t ∈ (setSentinelFailed now store tid reason).1
    ∧ (setSentinelFailedRow now t).state = "sentinel_failed"
    ∧ (setSentinelFailedRow now t).verification_status = some "sentinel_rejected"
    ∧ (setMerged now store tid prUrl).2 = mergedEvent tid prUrl
    ∧ (setMerged now store tid prUrl).2.fromState = "reviewing"
    ∧ (setSentinelFailed now store tid reason).2 = sentinelFailedEvent tid reason
    ∧ (setSentinelFailed now store tid reason).2.fromState = "reviewing" := by
  have hb : (t.id == tid) = true := by simp [hid]
  refine ⟨?_, rfl, rfl, rfl, ?_, rfl, rfl, rfl, rfl, rfl, rfl⟩
  · have h2 := List.mem_map_of_mem
      (fun x : Ticket => if x.id == tid then setMergedRow now x else x) hmem
    simpa [setMerged, hb] using h2
  · have h2 := List.mem_map_of_mem
      (fun x : Ticket => if x.id == tid then setSentinelFailedRow now x else x) hmem
    simpa [setSentinelFailed, hb] using h2

/-- Witness for C10: `setSentinelFailed` invoked on a ticket already in the
terminal `merged` state still performs the transition, and the audit event
claims `from_state = 'reviewing'` although the row was in `merged`. -/
theorem setMerged_setSentinelFailed_unconditional_witness :
    mergedTicket.state = "merged"
    ∧ setSentinelFailedRow 9 mergedTicket ∈
        (setSentinelFailed 9 [mergedTicket] "T1" "late failure").1
    ∧ (setSentinelFailedRow 9 mergedTicket).state = "sentinel_failed"
    ∧ (setSentinelFailed 9 [mergedTicket] "T1" "late failure").2.fromState = "reviewing" := by
  obtain ⟨-, -, -, -, e5, e6, -, -, -, -, e11⟩ :=
    setMerged_setSentinelFailed_unconditional 9 [mergedTicket] "T1" "url" "late failure"
      mergedTicket (by simp) rfl
  exact ⟨rfl, e5, e6, e11⟩

/-- C5: patches are applied strictly in list order, each against the content
left by the previous patch: the list `foldl` steps through the patches one
at a time, `[{"foo"→"bar"}, {"bar"→"baz"}]` takes content `"foo"` to
`"baz"`, and the reordered list yields `"bar"` instead. -/
theorem writeFiles_patches_in_order :
    (∀ (path : String) (st : String × Nat × List LogEntry) (p : Patch) (ps : List Patch),
      (p :: ps).foldl (applyPatch path) st = ps.foldl (applyPatch path) (applyPatch path st p))
    ∧ fsLookup (writeFiles [("a.txt", "foo")]
        [⟨"a.txt", "modify", "", some [⟨some "foo", some "bar"⟩, ⟨some "bar", some "baz"⟩]⟩]).fs
        "a.txt" = some "baz"
    ∧ fsLookup (writeFiles [("a.txt", "foo")]
        [⟨"a.txt", "modify", "", some [⟨some "bar", some "baz"⟩, ⟨some "foo", some "bar"⟩]⟩]).fs
        "a.txt" = some "bar"
    ∧ ("baz" : String) ≠ "bar" :=
  ⟨fun _ _ _ _ => rfl, by decide, by decide, by decide⟩

/-- If the scanner reports an occurrence, `includes` finds one. -/
theorem listContains_of_countOccAux_pos (s : List Char) :
    ∀ (l : List Char) (k : Nat), 0 < countOccAux s l k → listContains s l = true := by
  intro l
  induction l with
  | nil =>
    intro k h
    simp [countOccAux] at h
  | cons c cs ih =>
    intro k h
    match k with
    | k' + 1 =>
      have hc := ih k' (by simpa [countOccAux] using h)
      simp [listContains, hc]
    | 0 =>
      cases hls : listStartsWith s (c :: cs) with
      | true => simp [listContains, hls]
      | false =>
        rw [countOccAux, hls] at h
        simp only [Bool.false_and, if_neg Bool.false_ne_true] at h
        simp [listContains, ih 0 h]

/-- If `s` occurs at least once (by the split-count), `includes` finds it. -/
theorem listContains_of_countOcc_pos (s : List Char) (l : List Char)
    (h : 0 < countOcc s l) : listContains s l = true :=
  listContains_of_countOccAux_pos s l 0 h

/-- C4: a `modify` edit of an existing file from whose patch list zero
patches apply leaves the checkout byte-for-byte unchanged, does not report
the path as written, and logs the edit as failed for that path. -/
theorem writeFiles_zero_patches_applied (fs : Fs) (e : FileEdit) (ps : List Patch)
    (content : String) (hact : e.action = "modify") (hp : e.patches = some ps)
    (hfile : fsLookup fs e.path = some content)
    (hzero : (ps.foldl (applyPatch e.path) (content, 0, [])).2.1 = 0) :
    (writeFiles fs [e]).fs = fs
    ∧ fsLookup (writeFiles fs [e]).fs e.path = some content
    ∧ e.path ∉ (writeFiles fs [e]).written
    ∧ LogEntry.errNoPatches e.path ∈ (writeFiles fs [e]).logs := by
  have hb : (e.action == "modify") = true := by simp [hact]
  have hw : writeFiles fs [e] =
      ⟨fs, [],
       (ps.foldl (applyPatch e.path) (content, 0, [])).2.2 ++ [.errNoPatches e.path]⟩ := by
    simp [writeFiles, processFile, hp, hb, modifyFile, hfile, hzero]
  rw [hw]
  exact ⟨rfl, hfile, by simp, by simp⟩

/-- Witness for C4: a single patch whose search text is absent leaves the
file untouched and the path unreported. -/
theorem writeFiles_zero_patches_applied_witness :
    (writeFiles fs0 [⟨"a.txt", "modify", "", some [⟨some "missing", some "X"⟩]⟩]).fs = fs0
    ∧ "a.txt" ∉
        (writeFiles fs0 [⟨"a.txt", "modify", "", some [⟨some "missing", some "X"⟩]⟩]).written
    ∧ LogEntry.errNoPatches "a.txt" ∈
        (writeFiles fs0 [⟨"a.txt", "modify", "", some [⟨some "missing", some "X"⟩]⟩]).logs := by
  have h := writeFiles_zero_patches_applied fs0
    ⟨"a.txt", "modify", "", some [⟨some "missing", some "X"⟩]⟩
    [⟨some "missing", some "X"⟩] "old" rfl rfl (by decide) (by decide)
  exact ⟨h.1, h.2.2.1, h.2.2.2⟩

/-- C6: a patch whose search text occurs more than once in the current
content logs the non-fatal ambiguity warning, applies the replacement at
only the first occurrence, still counts as applied, and never fails the
edit (a file whose only patch is ambiguous is still written). -/
theorem applyPatch_ambiguous_replaces_first (path content : String) (n : Nat)
    (logs : List LogEntry) (p : Patch) (s r : String)
    (hs : p.search = some s) (hne : s ≠ "") (hr : p.replace = some r)
    (hocc : 1 < countOccS content s) :
    applyPatch path (content, n, logs) p =
      (strReplaceFirst content s r, n + 1,
       logs ++ [.warnNotUnique path (countOccS content s)])
    ∧ (∀ (fs : Fs) (e : FileEdit), e.action = "modify" → e.patches = some [p] →
        fsLookup fs e.path = some content →
        e.path ∈ (writeFiles fs [e]).written) := by
  have hinc : strIncludes content s = true :=
    listContains_of_countOcc_pos s.data content.data (lt_trans Nat.zero_lt_one hocc)
  have hbeq : (s == "") = false := beq_eq_false_iff_ne.mpr hne
  have key : ∀ (path' : String) (n' : Nat) (logs' : List LogEntry),
      applyPatch path' (content, n', logs') p =
        (strReplaceFirst content s r, n' + 1,
         logs' ++ [.warnNotUnique path' (countOccS content s)]) := by
    intro path' n' logs'
    simp [applyPatch, hs, hr, jsFalsyStr, hbeq, hinc, hocc]
  refine ⟨key path n logs, fun fs e hact hp hfile => ?_⟩
  have hb : (e.action == "modify") = true := by simp [hact]
  simp [writeFiles, processFile, hp, hb, modifyFile, hfile, key]

/-- Witness for C6: `"ab"` occurs twice in `"abab"`; the patch replaces the
first occurrence only, warns, and the file is still written. -/
theorem applyPatch_ambiguous_replaces_first_witness :
    applyPatch "a.txt" ("abab", 0, []) ⟨some "ab", some "X"⟩ =
      ("Xab", 1, [.warnNotUnique "a.txt" 2])
    ∧ "a.txt" ∈ (writeFiles [("a.txt", "abab")]
        [⟨"a.txt", "modify", "", some [⟨some "ab", some "X"⟩]⟩]).written := by
  have h := applyPatch_ambiguous_replaces_first "a.txt" "abab" 0 []
    ⟨some "ab", some "X"⟩ "ab" "X" rfl (by decide) rfl (by decide)
  exact ⟨h.1.trans (by decide),
         h.2 [("a.txt", "abab")] ⟨"a.txt", "modify", "", some [⟨some "ab", some "X"⟩]⟩
           rfl rfl (by decide)⟩

/-- C8: whatever the external steps do after a successful claim, the review
operation always returns normally (`isOk`), never propagating a fault to
the dispatch loop; every error the body raises — from the repo-URL lookup
or the verifier invocation — is caught at the top level and recorded as a
`sentinel_failed` transition carrying the error's message, and a merge
error is caught by the inner handler and recorded with the
`Merge failed:` prefix. -/
theorem executeSentinelReview_never_propagates (now : Nat) (t : Ticket)
    (repoLookup : Except String (Option String))
    (verifyRes : Except String VerifyResult) (cmd : MergeCmdResult) :
    (executeSentinelReview now t repoLookup verifyRes cmd).isOk = true
    ∧ (∀ e, claimEligible t = true →
        sentinelBody now t (claimUpdate now t) repoLookup verifyRes cmd = .error e →
        executeSentinelReview now t repoLookup verifyRes cmd =
          .ok (setSentinelFailedRow now (claimUpdate now t),
               [sentinelStartedEvent t.id, sentinelFailedEvent t.id e]))
    ∧ (∀ m, claimEligible t = true → jsFalsyStr t.repo_url = true →
        repoLookup = .error m →
        executeSentinelReview now t repoLookup verifyRes cmd =
          .ok (setSentinelFailedRow now (claimUpdate now t),
               [sentinelStartedEvent t.id, sentinelFailedEvent t.id m]))
    ∧ (∀ m, claimEligible t = true → jsFalsyStr t.repo_url = false →
        jsFalsyStr t.pr_url = false → verifyRes = .error m →
        executeSentinelReview now t repoLookup verifyRes cmd =
          .ok (setSentinelFailedRow now (claimUpdate now t),
               [sentinelStartedEvent t.id, sentinelFailedEvent t.id m]))
    ∧ (∀ vr m, claimEligible t = true → jsFalsyStr t.repo_url = false →
        jsFalsyStr t.pr_url = false → verifyRes = .ok vr → vr.status = "passed" →
        mergePR now cmd (claimUpdate now t) (t.pr_url.getD "") = .error m →
        executeSentinelReview now t repoLookup verifyRes cmd =
          .ok (setSentinelFailedRow now (claimUpdate now t),
               [sentinelStartedEvent t.id,
                sentinelFailedEvent t.id ("Merge failed: " ++ m)]))
    ∧ (setSentinelFailedRow now (claimUpdate now t)).state = "sentinel_failed"
    ∧ (setSentinelFailedRow now (claimUpdate now t)).verification_status =
        some "sentinel_rejected" := by
  have keyErr : ∀ e, claimEligible t = true →
      sentinelBody now t (claimUpdate now t) repoLookup verifyRes cmd = .error e →
      executeSentinelReview now t repoLookup verifyRes cmd =
        .ok (setSentinelFailedRow now (claimUpdate now t),
             [sentinelStartedEvent t.id, sentinelFailedEvent t.id e]) := by
    intro e hel hB
    have hA : atomicClaimRow now t =
        (some (claimUpdate now t), claimUpdate now t, [sentinelStartedEvent t.id]) := by
      simp [atomicClaimRow, hel]
    unfold executeSentinelReview
    rw [hA]
    simp [hB]
  have keyOk : ∀ t2 evs, claimEligible t = true →
      sentinelBody now t (claimUpdate now t) repoLookup verifyRes cmd = .ok (t2, evs) →
      executeSentinelReview now t repoLookup verifyRes cmd =
        .ok (t2, sentinelStartedEvent t.id :: evs) := by
    intro t2 evs hel hB
    have hA : atomicClaimRow now t =
        (some (claimUpdate now t), claimUpdate now t, [sentinelStartedEvent t.id]) := by
      simp [atomicClaimRow, hel]
    unfold executeSentinelReview
    rw [hA]
    simp [hB]
  refine ⟨?_, keyErr,
          fun m hel hrf hrl => keyErr m hel (by simp [sentinelBody, hrf, hrl]),
          fun m hel hrf hpr hv => keyErr m hel (by simp [sentinelBody, hrf, hpr, hv]),
          fun vr m hel hrf hpr hv hst hmerge => ?_,
          rfl, rfl⟩
  · unfold executeSentinelReview
    rcases hA : atomicClaimRow now t with ⟨ret, t1, evs0⟩
    cases ret with
    | none => rfl
    | some claimed =>
      cases hB : sentinelBody now t claimed repoLookup verifyRes cmd with
      | error e => simp [hB, Except.isOk, Except.toBool]
      | ok r =>
        rcases r with ⟨t2, evs⟩
        simp [hB, Except.isOk, Except.toBool]
  · have hstb : (vr.status == "passed") = true := by simp [hst]
    have hB : sentinelBody now t (claimUpdate now t) repoLookup verifyRes cmd =
        .ok (setSentinelFailedRow now (claimUpdate now t),
             [sentinelFailedEvent t.id ("Merge failed: " ++ m)]) := by
      simp [sentinelBody, hrf, hpr, hv, hstb, hmerge]
    have h2 := keyOk _ _ hel hB
    simpa using h2

/-- Witness for C8: a verifier crash on a concrete claimed ticket is caught
and recorded as `sentinel_failed` with the crash message; the call itself
returns normally. -/
theorem executeSentinelReview_never_propagates_witness :
    executeSentinelReview 5 sampleTicket (.ok (some "r")) (.error "verifier crashed")
        .success =
      .ok (setSentinelFailedRow 5 (claimUpdate 5 sampleTicket),
           [sentinelStartedEvent "T1", sentinelFailedEvent "T1" "verifier crashed"])
    ∧ (executeSentinelReview 5 sampleTicket (.ok (some "r")) (.error "verifier crashed")
        .success).isOk = true := by
  have h := executeSentinelReview_never_propagates 5 sampleTicket (.ok (some "r"))
    (.error "verifier crashed") .success
  exact ⟨h.2.2.2.1 "verifier crashed" (by decide) (by decide) (by decide) rfl, h.1⟩

/-! ### Split/join round-trip lemmas for the truncation claim -/

/-- `String.append` concatenates the underlying character lists. -/
theorem string_data_append (a b : String) : (a ++ b).data = a.data ++ b.data := rfl

/-- Splitting always yields at least one piece. -/
theorem splitNl_ne_nil : ∀ l : List Char, splitNl l ≠ [] := by
  intro l
  induction l with
  | nil => simp [splitNl]
  | cons c cs ih =>
    by_cases hc : c = '\n'
    · simp [splitNl, hc]
    · simp only [splitNl, if_neg hc]
      cases h : splitNl cs with
      | nil => simp
      | cons a as => simp

/-- A newline-free list splits into itself. -/
theorem noNl_splitNl : ∀ {l : List Char}, '\n' ∉ l → splitNl l = [l] := by
  intro l
  induction l with
  | nil => intro _; rfl
  | cons c cs ih =>
    intro h
    have hc : c ≠ '\n' := fun he => h (he ▸ List.mem_cons_self c cs)
    have hcs : '\n' ∉ cs := fun hm => h (List.mem_cons_of_mem c hm)
    simp [splitNl, hc, ih hcs]

/-- Splitting after a newline-free prefix peels that prefix off as the first
line. -/
theorem splitNl_append : ∀ {xs : List Char} (ys : List Char), '\n' ∉ xs →
    splitNl (xs ++ '\n' :: ys) = xs :: splitNl ys := by
  intro xs
  induction xs with
  | nil => intro ys _; simp [splitNl]
  | cons c cs ih =>
    intro ys h
    have hc : c ≠ '\n' := fun he => h (he ▸ List.mem_cons_self c cs)
    have hcs : '\n' ∉ cs := fun hm => h (List.mem_cons_of_mem c hm)
    simp [splitNl, hc, ih ys hcs]

/-- Every piece produced by splitting is newline-free. -/
theorem mem_splitNl_noNl : ∀ (l : List Char), ∀ m ∈ splitNl l, '\n' ∉ m := by
  intro l
  induction l with
  | nil =>
    intro m hm
    simp [splitNl] at hm
    subst hm
    simp
  | cons c cs ih =>
    intro m hm
    by_cases hc : c = '\n'
    · simp [splitNl, hc] at hm
      rcases hm with hm | hm
      · subst hm
        simp
      · exact ih m hm
    · simp only [splitNl, if_neg hc] at hm
      cases hsp : splitNl cs with
      | nil => exact absurd hsp (splitNl_ne_nil cs)
      | cons a as =>
        rw [hsp] at hm
        simp at hm
        rcases hm with hm | hm
        · subst hm
          intro hmem
          rcases List.mem_cons.mp hmem with he | he
          · exact hc he.symm
          · exact ih a (by rw [hsp]; exact List.mem_cons_self a as) he
        · exact ih m (by rw [hsp]; exact List.mem_cons_of_mem a hm)

/-- Unfolding `joinNl` on a cons with a non-empty tail. -/
theorem joinNl_cons (l : List Char) {ls : List (List Char)} (h : ls ≠ []) :
    joinNl (l :: ls) = l ++ '\n' :: joinNl ls := by
  cases ls with
  | nil => exact absurd rfl h
  | cons a as => rfl

/-- Round trip: joining newline-free lines and re-splitting recovers them. -/
theorem splitNl_joinNl : ∀ (ls : List (List Char)), (∀ m ∈ ls, '\n' ∉ m) → ls ≠ [] →
    splitNl (joinNl ls) = ls := by
  intro ls
  induction ls with
  | nil => intro _ h; exact absurd rfl h
  | cons a as ih =>
    intro hnl _
    cases as with
    | nil => simpa [joinNl] using noNl_splitNl (hnl a (by simp))
    | cons b bs =>
      rw [joinNl_cons a (by simp)]
      rw [splitNl_append _ (hnl a (by simp))]
      rw [ih (fun m hm => hnl m (List.mem_cons_of_mem a hm)) (by simp)]

/-- Splitting a joined newline-free block followed by a newline and a rest
yields the block's lines followed by the split of the rest. -/
theorem splitNl_joinNl_append : ∀ (H : List (List Char)) (rest : List Char),
    (∀ m ∈ H, '\n' ∉ m) → H ≠ [] →
    splitNl (joinNl H ++ '\n' :: rest) = H ++ splitNl rest := by
  intro H
  induction H with
  | nil => intro rest _ h; exact absurd rfl h
  | cons a as ih =>
    intro rest hnl _
    cases as with
    | nil => simpa [joinNl] using splitNl_append rest (hnl a (by simp))
    | cons b bs =>
      rw [joinNl_cons a (by simp), List.append_assoc, List.cons_append]
      rw [splitNl_append _ (hnl a (by simp))]
      rw [ih rest (fun m hm => hnl m (List.mem_cons_of_mem a hm)) (by simp)]
      simp

/-- `Nat.digitChar` never yields a newline. -/
theorem digitChar_ne_nl : ∀ n : Nat, Nat.digitChar n ≠ '\n'
  | 0 => by decide
  | 1 => by decide
  | 2 => by decide
  | 3 => by decide
  | 4 => by decide
  | 5 => by decide
  | 6 => by decide
  | 7 => by decide
  | 8 => by decide
  | 9 => by decide
  | 10 => by decide
  | 11 => by decide
  | 12 => by decide
  | 13 => by decide
  | 14 => by decide
  | 15 => by decide
  | (_ + 16) => by
    show ('*' : Char) ≠ '\n'
    decide

/-- `Nat.toDigitsCore` only adds digit characters, never a newline. -/
theorem toDigitsCore_ne_nl : ∀ (fuel base n : Nat) (ds : List Char),
    (∀ c ∈ ds, c ≠ '\n') → ∀ c ∈ Nat.toDigitsCore base fuel n ds, c ≠ '\n' := by
  intro fuel
  induction fuel with
  | zero =>
    intro base n ds h c hc
    simp [Nat.toDigitsCore] at hc
    exact h c hc
  | succ f ih =>
    intro base n ds h c hc
    by_cases hz : n / base = 0
    · simp [Nat.toDigitsCore, hz] at hc
      rcases hc with hc | hc
      · exact hc ▸ digitChar_ne_nl _
      · exact h c hc
    · simp only [Nat.toDigitsCore, if_neg hz] at hc
      exact ih base (n / base) (Nat.digitChar (n % base) :: ds)
        (fun x hx => by
          rcases List.mem_cons.mp hx with h1 | h1
          · exact h1 ▸ digitChar_ne_nl _
          · exact h x h1) c hc

/-- The decimal rendering of a `Nat` contains no newline. -/
theorem nl_not_mem_natToString (n : Nat) : '\n' ∉ (toString n).data := by
  intro h
  exact toDigitsCore_ne_nl (n + 1) 10 n [] (by simp) '\n' h rfl

/-- The elision marker line contains no newline. -/
theorem markerLine_noNl (n : Nat) : '\n' ∉ (markerLine n).data := by
  intro h
  simp only [markerLine, string_data_append, List.mem_append] at h
  rcases h with (h | h) | h
  · exact absurd h (by decide)
  · exact nl_not_mem_natToString n h
  · exact absurd h (by decide)

/-- Splitting `head ++ "\n\n" ++ marker ++ "\n\n" ++ tail` recovers the head
lines, a blank line, the marker line, a blank line, and the tail lines. -/
theorem splitNl_sandwich (H T : List (List Char)) (M : List Char)
    (hH : ∀ m ∈ H, '\n' ∉ m) (hT : ∀ m ∈ T, '\n' ∉ m) (hM : '\n' ∉ M)
    (hHne : H ≠ []) (hTne : T ≠ []) :
    splitNl (joinNl H ++ '\n' :: '\n' :: (M ++ '\n' :: '\n' :: joinNl T)) =
      H ++ [] :: M :: [] :: T := by
  rw [splitNl_joinNl_append H ('\n' :: (M ++ '\n' :: '\n' :: joinNl T)) hH hHne]
  congr 1
  rw [show splitNl ('\n' :: (M ++ '\n' :: '\n' :: joinNl T)) =
      [] :: splitNl (M ++ '\n' :: ('\n' :: joinNl T)) from by simp [splitNl]]
  congr 1
  rw [splitNl_append ('\n' :: joinNl T) hM]
  congr 1
  rw [show splitNl ('\n' :: joinNl T) = [] :: splitNl (joinNl T) from by simp [splitNl]]
  rw [splitNl_joinNl T hT hTne]

/-- Re-wrapping the character lists of strings yields the same strings. -/
theorem map_mk_map_data (X : List String) :
    (X.map String.data).map (fun cs => (⟨cs⟩ : String)) = X := by
  rw [List.map_map]
  have h : (fun cs => (⟨cs⟩ : String)) ∘ String.data = id := by
    funext x
    rfl
  rw [h, List.map_id]

/-- String-level round trip: joining newline-free lines and re-splitting
recovers them. -/
theorem splitLines_joinLines (X : List String) (hX : ∀ m ∈ X, '\n' ∉ m.data)
    (hne : X ≠ []) : splitLines (joinLines X) = X := by
  show (splitNl (joinLines X).data).map _ = X
  have hdata : (joinLines X).data = joinNl (X.map String.data) := rfl
  rw [hdata, splitNl_joinNl (X.map String.data)
    (by
      intro m hm
      rcases List.mem_map.mp hm with ⟨a, ha, rfl⟩
      exact hX a ha)
    (fun h => hne (List.map_eq_nil_iff.mp h))]
  exact map_mk_map_data X

/-- String-level sandwich: splitting
`join(A) ++ "\n\n... [" ++ n ++ " lines truncated] ...\n\n" ++ join(B)`
yields the lines of `A`, a blank, the single marker line, a blank, and the
lines of `B`. -/
theorem splitLines_sandwich (A B : List String) (n : Nat)
    (hA : ∀ m ∈ A, '\n' ∉ m.data) (hB : ∀ m ∈ B, '\n' ∉ m.data)
    (hAne : A ≠ []) (hBne : B ≠ []) :
    splitLines (joinLines A ++ "\n\n... [" ++ toString n ++
        " lines truncated] ...\n\n" ++ joinLines B)
      = A ++ ["", markerLine n, ""] ++ B := by
  have e1 : ("\n\n... [" : String).data = '\n' :: '\n' :: ("... [" : String).data := rfl
  have e2 : (" lines truncated] ...\n\n" : String).data =
      (" lines truncated] ..." : String).data ++ ['\n', '\n'] := by decide
  have hdata : (joinLines A ++ "\n\n... [" ++ toString n ++
      " lines truncated] ...\n\n" ++ joinLines B).data
      = joinNl (A.map String.data) ++ '\n' :: '\n' ::
          ((markerLine n).data ++ '\n' :: '\n' :: joinNl (B.map String.data)) := by
    simp only [string_data_append, e1, e2, markerLine, joinLines,
      List.append_assoc, List.cons_append, List.nil_append]
  have hAd : ∀ m ∈ A.map String.data, '\n' ∉ m := by
    intro m hm
    rcases List.mem_map.mp hm with ⟨a, ha, rfl⟩
    exact hA a ha
  have hBd : ∀ m ∈ B.map String.data, '\n' ∉ m := by
    intro m hm
    rcases List.mem_map.mp hm with ⟨b, hb, rfl⟩
    exact hB b hb
  have hAd_ne : A.map String.data ≠ [] := by
    intro h
    exact hAne (List.map_eq_nil_iff.mp h)
  have hBd_ne : B.map String.data ≠ [] := by
    intro h
    exact hBne (List.map_eq_nil_iff.mp h)
  show (splitNl (joinLines A ++ "\n\n... [" ++ toString n ++
      " lines truncated] ...\n\n" ++ joinLines B).data).map (fun cs => (⟨cs⟩ : String)) = _
  rw [hdata]
  rw [splitNl_sandwich (A.map String.data) (B.map String.data) (markerLine n).data
    hAd hBd (markerLine_noNl n) hAd_ne hBd_ne]
  simp only [List.map_append, List.map_cons, map_mk_map_data]
  rw [List.append_assoc]
  rfl

/-- C3 (amended): a file whose line count exceeds the budget keeps the first
`budget / 2` lines and the last `budget / 2` lines and replaces the omitted
middle with blank separators around a single elision marker line stating
`lineCount - budget` (the code's count, which equals the number of omitted
lines for an even budget); a file at or below the budget is returned
unmodified. -/
theorem fetchExistingFileContent_truncation (content : String) (maxLines : Nat)
    (h1 : maxLines < (splitLines content).length) (h2 : 0 < maxLines / 2) :
    (∃ out, fetchExistingFileContent (some content) maxLines = some out ∧
      splitLines out =
        (splitLines content).take (maxLines / 2)
          ++ ["", markerLine ((splitLines content).length - maxLines), ""]
          ++ (splitLines content).drop
              ((splitLines content).length - maxLines / 2))
    ∧ (∀ c2 b2, (splitLines c2).length ≤ b2 →
        fetchExistingFileContent (some c2) b2 = some c2) := by
  constructor
  · have hk0 : maxLines / 2 ≠ 0 := Nat.pos_iff_ne_zero.mp h2
    have hkm : maxLines / 2 ≤ maxLines := Nat.div_le_self _ _
    have hmemline : ∀ m ∈ splitLines content, '\n' ∉ m.data := by
      intro m hm
      simp only [splitLines, List.mem_map] at hm
      rcases hm with ⟨cs, hcs, rfl⟩
      exact mem_splitNl_noNl content.data cs hcs
    have hlenpos : 0 < (splitLines content).length := by omega
    have hA : ∀ m ∈ (splitLines content).take (maxLines / 2), '\n' ∉ m.data :=
      fun m hm => hmemline m (List.mem_of_mem_take hm)
    have hB : ∀ m ∈ (splitLines content).drop
        ((splitLines content).length - maxLines / 2), '\n' ∉ m.data :=
      fun m hm => hmemline m (List.mem_of_mem_drop hm)
    have hAne : (splitLines content).take (maxLines / 2) ≠ [] := by
      apply List.ne_nil_of_length_pos
      simp only [List.length_take]
      omega
    have hBne : (splitLines content).drop
        ((splitLines content).length - maxLines / 2) ≠ [] := by
      apply List.ne_nil_of_length_pos
      simp only [List.length_drop]
      omega
    refine ⟨joinLines ((splitLines content).take (maxLines / 2)) ++
      "\n\n... [" ++ toString ((splitLines content).length - maxLines) ++
      " lines truncated] ...\n\n" ++
      joinLines (jsSliceLast (splitLines content) (maxLines / 2)), ?_, ?_⟩
    · simp [fetchExistingFileContent, h1]
    · rw [jsSliceLast, if_neg hk0]
      exact splitLines_sandwich _ _ _ hA hB hAne hBne
  · intro c2 b2 hle
    simp [fetchExistingFileContent, Nat.not_lt.mpr hle]

/-- Counterexample to C3 as stated: for the claim's own instance — a
1000-line file truncated at a 300-line budget — the code's marker states
`700` (`lineCount - budget`), not `850`; the output keeps the first 150 and
last 150 lines around a marker line of `700`, and no output with an `850`
marker is produced. -/
theorem fetch_truncation_marker_states_700_not_850 :
    splitLines content1000 = List.replicate 1000 "x"
    ∧ (∃ out, fetchExistingFileContent (some content1000) 300 = some out ∧
        splitLines out =
          List.replicate 150 "x" ++ ["", markerLine 700, ""] ++ List.replicate 150 "x")
    ∧ markerLine 700 = "... [700 lines truncated] ..."
    ∧ markerLine 700 ≠ "... [850 lines truncated] ..."
    ∧ (∀ out, fetchExistingFileContent (some content1000) 300 = some out →
        splitLines out ≠
          List.replicate 150 "x" ++ ["", markerLine 850, ""] ++ List.replicate 150 "x") := by
  have hsplit : splitLines content1000 = List.replicate 1000 "x" := by
    apply splitLines_joinLines
    · intro m hm
      rw [List.eq_of_mem_replicate hm]
      decide
    · exact List.ne_nil_of_length_pos (by rw [List.length_replicate]; norm_num)
  have hlen : (splitLines content1000).length = 1000 := by
    rw [hsplit, List.length_replicate]
  have htake : (splitLines content1000).take 150 = List.replicate 150 "x" := by
    rw [hsplit, List.take_replicate]
    norm_num
  have hdrop : (splitLines content1000).drop 850 = List.replicate 150 "x" := by
    rw [hsplit, List.drop_replicate]
  have h1 : (splitLines content1000).length > 300 := by
    rw [hlen]
    norm_num
  have hfetch : fetchExistingFileContent (some content1000) 300 =
      some (joinLines (List.replicate 150 "x") ++ "\n\n... [" ++ toString 700 ++
        " lines truncated] ...\n\n" ++ joinLines (List.replicate 150 "x")) := by
    simp [fetchExistingFileContent, jsSliceLast, hlen, h1, htake, hdrop]
  have hxnl : ∀ m ∈ List.replicate 150 "x", '\n' ∉ m.data := by
    intro m hm
    rw [List.eq_of_mem_replicate hm]
    decide
  have hne150 : (List.replicate 150 "x") ≠ [] :=
    List.ne_nil_of_length_pos (by rw [List.length_replicate]; norm_num)
  have hs : splitLines (joinLines (List.replicate 150 "x") ++ "\n\n... [" ++
      toString 700 ++ " lines truncated] ...\n\n" ++ joinLines (List.replicate 150 "x")) =
      List.replicate 150 "x" ++ ["", markerLine 700, ""] ++ List.replicate 150 "x" :=
    splitLines_sandwich _ _ 700 hxnl hxnl hne150 hne150
  refine ⟨hsplit, ⟨_, hfetch, hs⟩, by decide, by decide, ?_⟩
  intro out hf hcontr
  rw [hfetch] at hf
  have hout := Option.some.inj hf
  rw [← hout, hs] at hcontr
  rw [List.append_assoc, List.append_assoc] at hcontr
  have h3 := List.append_cancel_left hcontr
  simp only [List.cons_append, List.nil_append, List.cons.injEq, and_true, true_and] at h3
  exact absurd h3 (by decide)

/-- Witness for C3 (amended): a concrete five-line file at budget 4 keeps
lines 1–2 and 4–5 around a `1 lines truncated` marker; a two-line file at
budget 4 is returned unmodified. -/
theorem fetchExistingFileContent_truncation_witness :
    (∃ out, fetchExistingFileContent (some "a\nb\nc\nd\ne") 4 = some out ∧
      splitLines out = ["a", "b", "", markerLine 1, "", "d", "e"])
    ∧ fetchExistingFileContent (some "a\nb") 4 = some "a\nb" := by
  obtain ⟨⟨out, hf, hs⟩, hle⟩ :=
    fetchExistingFileContent_truncation "a\nb\nc\nd\ne" 4 (by decide) (by decide)
  refine ⟨⟨out, hf, ?_⟩, hle "a\nb" 4 (by decide)⟩
  rw [hs]
  decide

end Swarm
